import Mathlib

/-!
Verification of the request-handling contract of the Parakeet ASR serving
harness (serve.py), the SageMaker inference module (inference.py) and the
deployment script (deploy_parakeet.py).

Strings from the Python source are embedded as lists of characters
(`Str := List Char`), raw audio byte strings as lists of naturals
(`Bytes := List Nat`, each element < 256).  External effects (the local
filesystem, remote HTTP fetches, temporary-file creation/write, and the
NeMo `model.transcribe` call) are supplied as oracles in an `Env` record,
so the handler itself is a total Lean function; an oracle returning
`none` / `.error` models the corresponding Python call raising an
exception.
-/

/-- Character lists stand in for Python `str` values. -/
abbrev Str := List Char

/-- Nat lists stand in for Python `bytes` values (each element < 256). -/
abbrev Bytes := List Nat

/-- Python `s.startswith(p)`: `p` matched character by character against
the front of `s`. -/
def startsWithS : Str → Str → Bool
  | [], _ => true
  | _ :: _, [] => false
  | a :: ps, b :: ss => if a = b then startsWithS ps ss else false

/-- Python `c in s` for a single character `c`. -/
def containsC (c : Char) : Str → Bool
  | [] => false
  | x :: xs => if x = c then true else containsC c xs

/-- Python `s.split(sep, 1)[1]` for a one-character separator: everything
after the first occurrence of `c` (only used under a `c in s` guard). -/
def afterChar (c : Char) : Str → Str
  | [] => []
  | x :: xs => if x = c then xs else afterChar c xs

/-- Python `d.get(k)` on a JSON object represented as an association
list (keys are unique in a parsed JSON object, so first match suffices). -/
def getKey {α : Type} (k : Str) : List (Str × α) → Option α
  | [] => none
  | (k2, v) :: rest => if k2 = k then some v else getKey k rest

/-- The standard base64 alphabet used by Python `base64.b64encode` /
`b64decode`. -/
def b64alphabet : List Char :=
  "ABCDEFGHIJKLMNOPQRSTUVWXYZabcdefghijklmnopqrstuvwxyz0123456789+/".toList

/-- Character for a 6-bit group (the default is never reached for
in-range input). -/
def b64char (n : Nat) : Char := b64alphabet.getD n 'A'

/-- Index of a character in a character list. -/
def findIdx (c : Char) : List Char → Option Nat
  | [] => none
  | x :: xs => if x = c then some 0 else (findIdx c xs).map (· + 1)

/-- Classify a character for base64 decoding: `some none` is the padding
character, `some (some v)` an alphabet character of value `v`, `none` a
character outside the alphabet. -/
def b64sym (c : Char) : Option (Option Nat) :=
  if c = '=' then some none else (findIdx c b64alphabet).map some

/-- Characters kept by Python `b64decode` (with `validate=False` all
other characters are discarded before decoding). -/
def isB64OrPad (c : Char) : Bool := (b64sym c).isSome

/-- Models Python `base64.b64encode`: 3 input bytes become 4 alphabet
characters; a trailing group of 1 or 2 bytes is padded with `=`. -/
def b64encode : Bytes → List Char
  | [] => []
  | [a] => [b64char (a / 4), b64char (a % 4 * 16), '=', '=']
  | [a, b] => [b64char (a / 4), b64char (a % 4 * 16 + b / 16), b64char (b % 16 * 4), '=']
  | a :: b :: c :: rest =>
      b64char (a / 4) :: b64char (a % 4 * 16 + b / 16) :: b64char (b % 16 * 4 + c / 64) ::
        b64char (c % 64) :: b64encode rest

/-- Models Python `base64.b64decode` on the retained characters: groups
of four characters; `=` padding only in the final group; any other shape
raises (returns `none`). -/
def b64decodeChars : List Char → Option Bytes
  | [] => some []
  | c0 :: c1 :: c2 :: c3 :: rest =>
      match b64sym c0, b64sym c1, b64sym c2, b64sym c3 with
      | some (some v0), some (some v1), some none, some none =>
          if rest.isEmpty then some [v0 * 4 + v1 / 16] else none
      | some (some v0), some (some v1), some (some v2), some none =>
          if rest.isEmpty then some [v0 * 4 + v1 / 16, v1 % 16 * 16 + v2 / 4] else none
      | some (some v0), some (some v1), some (some v2), some (some v3) =>
          match b64decodeChars rest with
          | some bs => some ((v0 * 4 + v1 / 16) :: (v1 % 16 * 16 + v2 / 4) :: (v2 % 4 * 64 + v3) :: bs)
          | none => none
      | _, _, _, _ => none
  | _ => none

/-- Models Python `base64.b64decode(s)` (default `validate=False`):
characters outside the alphabet and `=` are discarded, then the groups
are decoded; `none` models a raised `binascii.Error`. -/
def b64decode (s : Str) : Option Bytes := b64decodeChars (s.filter isB64OrPad)

/-- JSON values as parsed by Flask `request.get_json()`. -/
inductive Json where
  | null
  | bool (b : Bool)
  | num (q : ℚ)
  | str (s : Str)
  | arr (elems : List Json)
  | obj (entries : List (Str × Json))

/-- Python truthiness of a JSON-decoded value (`None`, `False`, `0`,
`""`, `[]`, `{}` are falsy). -/
def truthy : Json → Bool
  | .null => false
  | .bool b => b
  | .num q => if q = 0 then false else true
  | .str s => !s.isEmpty
  | .arr l => !l.isEmpty
  | .obj l => !l.isEmpty

/-- Truthiness of `d.get(k)`, which is `None` when the key is absent. -/
def truthyOpt : Option Json → Bool
  | none => false
  | some j => truthy j

/-- The content type accepted by the handler. -/
def appJson : Str := "application/json".toList

/-- Request field names. -/
def audioKey : Str := "audio".toList

/-- Request field name for the `timestamps` flag. -/
def timestampsKey : Str := "timestamps".toList

/-- Request field name for the accepted-but-unused `language` field. -/
def languageKey : Str := "language".toList

/-- Key of the word-level entries in the timestamp dictionary of the model. -/
def wordKey : Str := "word".toList

/-- The fixed model identifier returned in every successful response. -/
def modelId : Str := "nvidia/parakeet-tdt-0.6b-v2".toList

/-- Error message for a missing (or falsy) `audio` field
(serve.py line 143). -/
def missingAudioMsg : Str := "Missing \x27audio\x27 field".toList

/-- Error message when `process_audio` returns `None`
(serve.py line 148). -/
def failedAudioMsg : Str := "Failed to process audio data".toList

/-- The data-URL scheme marker tested by `str.startswith("data:")`. -/
def dataScheme : Str := "data:".toList

/-- URL scheme markers tested on the `path` field of an object audio
source. -/
def httpScheme : Str := "http://".toList

/-- The https scheme marker. -/
def httpsScheme : Str := "https://".toList

/-- The data-URL head used throughout the spec examples. -/
def wavDataUrl : Str := "data:audio/wav;base64,".toList

/-- One word entry of the structured timestamp output; the source
attribute names are `word`, `start`, `end` (`end` is a Lean keyword, so
the third field is called `stop` here). -/
structure WordStamp where
  word : Str
  start : ℚ
  stop : ℚ

/-- Models `output[0]` of `model.transcribe`: `text` is `some` when the
object has a `text` attribute, `str_repr` models `str(output[0])`, and
`timestamp` is `some d` when the object has a `timestamp` attribute
holding the dictionary `d` (an empty `d` is falsy in Python). -/
structure ModelOutput where
  text : Option Str
  str_repr : Str
  timestamp : Option (List (Str × List WordStamp))

/-- Oracles for the effects the handler performs.  A `none` / `.error`
result models the corresponding Python call raising an exception.
`transcribe` receives the audio bytes that were written to the
temporary file (the NeMo call reads that file back) plus the
`timestamps` keyword flag. -/
structure Env where
  fs : Str → Option Bytes
  http : Str → Option Bytes
  tempCreateOk : Bool
  tempCreateErrMsg : Str
  writeOk : Bool
  writeErrMsg : Str
  textAttrErrMsg : Str
  transcribe : Bytes → Bool → Except Str ModelOutput

/-- Models `process_audio` (serve.py lines 73-112; the identical inline
logic is inference.py lines 78-107):
string inputs are classified as data-URL / file path / bare base64,
object inputs by their `data` or `path` key; any exception inside the
`try` is caught and turned into `None`. -/
def process_audio (env : Env) : Json → Option Bytes
  | .str s =>
      if startsWithS dataScheme s then
        b64decode (if containsC ',' s then afterChar ',' s else s)
      else if containsC '/' s || containsC '\\' s then
        env.fs s
      else
        b64decode s
  | .obj kvs =>
      match getKey "data".toList kvs with
      | some (.str d) =>
          if startsWithS dataScheme d then
            if containsC ',' d then b64decode (afterChar ',' d)
            else none
          else b64decode d
      | some _ => none
      | none =>
          match getKey "path".toList kvs with
          | some (.str p) =>
              if startsWithS httpScheme p || startsWithS httpsScheme p then env.http p
              else env.fs p
          | some _ => none
          | none => none
  | _ => none

/-- Extraction of the word-level spans in the `timestamps=True` branch
(serve.py lines 163-166): `output[0].timestamp.get("word", [])` when the
`timestamp` attribute exists and is truthy, the empty list otherwise. -/
def extractWords (out : ModelOutput) : List WordStamp :=
  match out.timestamp with
  | some d => if d.isEmpty then [] else (getKey wordKey d).getD []
  | none => []

/-- The transcription section of the handler (serve.py lines 158-172):
with timestamps the result text is `output[0].text` (an `AttributeError`
if the attribute is missing) and the word spans are extracted; without
timestamps the text tolerates a missing `text` attribute by falling back
to `str(output[0])`. -/
def transcribeStep (env : Env) (audio_data : Bytes) (wantTs : Bool) :
    Except Str (Str × Option (List WordStamp)) :=
  if wantTs then
    match env.transcribe audio_data true with
    | .error e => .error e
    | .ok out =>
        match out.text with
        | some t => .ok (t, some (extractWords out))
        | none => .error env.textAttrErrMsg
  else
    match env.transcribe audio_data false with
    | .error e => .error e
    | .ok out => .ok (out.text.getD out.str_repr, none)

/-- The JSON body of a handler response: either `{"error": msg}` or the
success shape `{"text", ["timestamps"], "processing_time", "model"}`
(the `timestamps` key is present exactly when the second component is
`some`). -/
inductive RespBody where
  | err (msg : Str)
  | ok (text : Str) (timestamps : Option (List WordStamp)) (processing_time : ℚ) (model : Str)

/-- An HTTP response of the handler. -/
structure Resp where
  status : Nat
  body : RespBody

/-- Python `round(x, 3)` (millisecond precision).  Python rounds ties to
even; ties never matter for the claims, so the standard `round` is
used. -/
def round3 (q : ℚ) : ℚ := ((round (q * 1000) : ℤ) : ℚ) / 1000

/-- The handler body after content-type check and field lookup
(serve.py lines 138-191).  `_language` is the `language` field: the
source assigns it (line 140) and never reads it.  `t0`/`t1` are the
wall-clock readings of `time.time()` at request start and at result
assembly.  The second component of the result is whether the per-request
temporary file still exists on disk when the request completes: the
`finally` block unlinks it whenever `temp_file` was assigned, which in
the source happens after `f.write` succeeds (temp-file names returned by
`tempfile` are non-empty, so the `if temp_file` test is equivalent to
the name having been assigned); if `NamedTemporaryFile` created the file
but `f.write` raised, `temp_file` is still `None` and the file is left
behind. -/
def invokeCore (env : Env) (audio_source : Option Json) (timestamps _language : Json)
    (t0 t1 : ℚ) : Resp × Bool :=
  if truthyOpt audio_source then
    match process_audio env (audio_source.getD .null) with
    | none => (⟨400, .err failedAudioMsg⟩, false)
    | some audio_data =>
        if env.tempCreateOk then
          if env.writeOk then
            match transcribeStep env audio_data (truthy timestamps) with
            | .error e => (⟨500, .err e⟩, false)
            | .ok (text, ts) => (⟨200, .ok text ts (round3 (t1 - t0)) modelId⟩, false)
          else (⟨500, .err env.writeErrMsg⟩, true)
        else (⟨500, .err env.tempCreateErrMsg⟩, false)
  else (⟨400, .err missingAudioMsg⟩, false)

/-- The `POST /invocations` handler `invoke` (serve.py lines 124-191):
unsupported content types get a 415 before any audio processing; a JSON
body is read through `input_data.get` for its `audio`, `timestamps` and
`language` fields and handled by `invokeCore`. -/
def invoke (env : Env) (contentType : Str) (body : List (Str × Json)) (t0 t1 : ℚ) :
    Resp × Bool :=
  if contentType = appJson then
    invokeCore env (getKey audioKey body) ((getKey timestampsKey body).getD (.bool false))
      ((getKey languageKey body).getD (.str "en".toList)) t0 t1
  else
    (⟨415, .err ("Unsupported content type: ".toList ++ contentType)⟩, false)

/-- A response body with the `processing_time` field zeroed out, for
stating that two responses agree apart from the measured time. -/
def stripPT : RespBody → RespBody
  | .err m => .err m
  | .ok t ts _ m => .ok t ts 0 m

/-- Model name generated by `deploy` (deploy_parakeet.py line 23). -/
def model_name (ts : Str) : Str := "parakeet-tdt-".toList ++ ts

/-- Endpoint-config name generated by `deploy` (line 24). -/
def endpoint_config_name (ts : Str) : Str := "parakeet-config-".toList ++ ts

/-- Endpoint name generated by `deploy` (line 25). -/
def endpoint_name (ts : Str) : Str := "parakeet-asr-".toList ++ ts

/-- A concrete `%Y-%m-%d-%H-%M-%S` timestamp used in counterexamples. -/
def exTs : Str := "2025-01-01-00-00-00".toList

/-- The SageMaker SDK calls performed by `cleanup`
(deploy_parakeet.py lines 96-130). -/
inductive SmAction where
  | describeEndpoint
  | describeEndpointConfig
  | deleteEndpoint
  | waitEndpointDeleted
  | deleteEndpointConfig
  | deleteModel
deriving DecidableEq

/-- The SDK calls of `cleanup` in source order: resolve the config of
the endpoint, then the model of that config, delete the endpoint, wait,
delete the config, delete the model. -/
def cleanupSteps : List SmAction :=
  [.describeEndpoint, .describeEndpointConfig, .deleteEndpoint, .waitEndpointDeleted,
   .deleteEndpointConfig, .deleteModel]

/-- Run a sequence of SDK calls inside one `try`: the first failing call
aborts the remainder; the `except` clause reports it (second component
`true`) and does not retry. -/
def runSteps (fails : SmAction → Bool) : List SmAction → List SmAction × Bool
  | [] => ([], false)
  | a :: rest =>
      if fails a then ([a], true)
      else
        let r := runSteps fails rest
        (a :: r.1, r.2)

/-- Models `cleanup` (deploy_parakeet.py lines 96-130): the pair of the
trace of attempted SDK calls and whether an exception was caught and
reported.  The function is total: an exception never escapes `cleanup`. -/
def cleanup (fails : SmAction → Bool) : List SmAction × Bool :=
  runSteps fails cleanupSteps

/-- An environment whose filesystem and network are empty and whose
model call fails; file creation and writes succeed. -/
def envEmpty : Env where
  fs := fun _ => none
  http := fun _ => none
  tempCreateOk := true
  tempCreateErrMsg := []
  writeOk := true
  writeErrMsg := []
  textAttrErrMsg := []
  transcribe := fun _ _ => .error []

/-- A sample transcription output with a `text` attribute and a truthy
`timestamp` dictionary carrying one word span. -/
def outOk : ModelOutput where
  text := some "hello".toList
  str_repr := "hello".toList
  timestamp := some [(wordKey, [⟨"hello".toList, 0, 1⟩])]

/-- An environment where every effect succeeds and the model returns
`outOk`. -/
def envOk : Env := { envEmpty with transcribe := fun _ _ => .ok outOk }

/-- An environment where the temporary file is created but writing the
audio bytes to it raises. -/
def envLeak : Env := { envEmpty with writeOk := false, writeErrMsg := "disk full".toList }

set_option maxRecDepth 8192 in
/-- Decoding a character produced by `b64char` recovers its 6-bit value. -/
theorem b64sym_b64char : ∀ v ∈ List.range 64, b64sym (b64char v) = some (some v) := by
  decide

/-- Every character `b64char` can produce is kept by the decoding
filter (out-of-range indices hit the default character `A`). -/
theorem isB64OrPad_b64char (v : Nat) : isB64OrPad (b64char v) = true := by
  by_cases h : v < 64
  · have := b64sym_b64char v (by simpa using h)
    simp [isB64OrPad, this]
  · have hlen : b64alphabet.length = 64 := by decide
    have : b64char v = 'A' := by
      unfold b64char
      exact List.getD_eq_default _ _ (by omega)
    rw [this]
    decide

/-- Every character of an encoded string is an alphabet character or
padding. -/
theorem isB64OrPad_of_mem_b64encode (bs : Bytes) (c : Char) (hc : c ∈ b64encode bs) :
    isB64OrPad c = true := by
  match bs with
  | [] => simp [b64encode] at hc
  | [a] =>
      simp only [b64encode, List.mem_cons, List.not_mem_nil, or_false] at hc
      rcases hc with rfl | rfl | rfl | rfl
      · exact isB64OrPad_b64char _
      · exact isB64OrPad_b64char _
      · decide
      · decide
  | [a, b] =>
      simp only [b64encode, List.mem_cons, List.not_mem_nil, or_false] at hc
      rcases hc with rfl | rfl | rfl | rfl
      · exact isB64OrPad_b64char _
      · exact isB64OrPad_b64char _
      · exact isB64OrPad_b64char _
      · decide
  | a :: b :: c2 :: rest =>
      simp only [b64encode, List.mem_cons] at hc
      rcases hc with rfl | rfl | rfl | rfl | hmem
      · exact isB64OrPad_b64char _
      · exact isB64OrPad_b64char _
      · exact isB64OrPad_b64char _
      · exact isB64OrPad_b64char _
      · exact isB64OrPad_of_mem_b64encode rest c hmem

/-- The decoding filter keeps an encoded string unchanged. -/
theorem filter_b64encode (bs : Bytes) : (b64encode bs).filter isB64OrPad = b64encode bs :=
  List.filter_eq_self.mpr (fun c hc => isB64OrPad_of_mem_b64encode bs c hc)

/-- Decoding inverts encoding on the underlying character groups. -/
theorem b64decodeChars_b64encode (bs : Bytes) (hb : ∀ x ∈ bs, x < 256) :
    b64decodeChars (b64encode bs) = some bs := by
  match bs with
  | [] => rfl
  | [a] =>
      have ha : a < 256 := hb a (by simp)
      have h0 := b64sym_b64char (a / 4) (by simp only [List.mem_range]; omega)
      have h1 := b64sym_b64char (a % 4 * 16) (by simp only [List.mem_range]; omega)
      have hp : b64sym '=' = some none := by rfl
      simp only [b64encode, b64decodeChars, h0, h1, hp, List.isEmpty, if_true,
        Option.some.injEq, List.cons.injEq, and_true]
      omega
  | [a, b] =>
      have ha : a < 256 := hb a (by simp)
      have hbb : b < 256 := hb b (by simp)
      have h0 := b64sym_b64char (a / 4) (by simp only [List.mem_range]; omega)
      have h1 := b64sym_b64char (a % 4 * 16 + b / 16) (by simp only [List.mem_range]; omega)
      have h2 := b64sym_b64char (b % 16 * 4) (by simp only [List.mem_range]; omega)
      have hp : b64sym '=' = some none := by rfl
      simp only [b64encode, b64decodeChars, h0, h1, h2, hp, List.isEmpty, if_true,
        Option.some.injEq, List.cons.injEq, and_true]
      omega
  | a :: b :: c :: rest =>
      have ha : a < 256 := hb a (by simp)
      have hbb : b < 256 := hb b (by simp)
      have hcc : c < 256 := hb c (by simp)
      have ih := b64decodeChars_b64encode rest (fun x hx => hb x (by simp [hx]))
      have h0 := b64sym_b64char (a / 4) (by simp only [List.mem_range]; omega)
      have h1 := b64sym_b64char (a % 4 * 16 + b / 16) (by simp only [List.mem_range]; omega)
      have h2 := b64sym_b64char (b % 16 * 4 + c / 64) (by simp only [List.mem_range]; omega)
      have h3 := b64sym_b64char (c % 64) (by simp only [List.mem_range]; omega)
      simp only [b64encode, b64decodeChars, h0, h1, h2, h3, ih,
        Option.some.injEq, List.cons.injEq, and_true]
      omega

/-- Round trip of the modelled Python pair `b64decode ∘ b64encode`. -/
theorem b64decode_b64encode (bs : Bytes) (hb : ∀ x ∈ bs, x < 256) :
    b64decode (b64encode bs) = some bs := by
  rw [b64decode, filter_b64encode, b64decodeChars_b64encode bs hb]

/-- A character reported present by `containsC` is a member of the list. -/
theorem containsC_true (c : Char) (l : Str) (h : containsC c l = true) : c ∈ l := by
  induction l with
  | nil => simp [containsC] at h
  | cons x xs ih =>
      by_cases hx : x = c
      · subst hx; exact List.mem_cons_self _ _
      · simp only [containsC, if_neg hx] at h
        exact List.mem_cons_of_mem _ (ih h)

/-- A successful `startsWithS` test exhibits the tail. -/
theorem startsWithS_exists (p s : Str) (h : startsWithS p s = true) : ∃ t, s = p ++ t := by
  induction p generalizing s with
  | nil => exact ⟨s, rfl⟩
  | cons a ps ih =>
      cases s with
      | nil => simp [startsWithS] at h
      | cons b ss =>
          by_cases hab : a = b
          · subst hab
            simp only [startsWithS, if_pos rfl] at h
            obtain ⟨t, ht⟩ := ih ss h
            exact ⟨t, by rw [List.cons_append, ht]⟩
          · simp [startsWithS, hab] at h

/-- An encoded string never looks like a data URL: the scheme marker
contains a colon and colons never occur in base64 output. -/
theorem not_data_b64encode (bs : Bytes) : startsWithS dataScheme (b64encode bs) = false := by
  cases hx : startsWithS dataScheme (b64encode bs) with
  | false => rfl
  | true =>
      obtain ⟨t, ht⟩ := startsWithS_exists _ _ hx
      have hcolon : ':' ∈ b64encode bs := by
        rw [ht]
        exact List.mem_append_left _ (by decide)
      exact absurd (isB64OrPad_of_mem_b64encode bs ':' hcolon) (by decide)

/-- Base64 output never contains a backslash. -/
theorem not_backslash_b64encode (bs : Bytes) : containsC '\\' (b64encode bs) = false := by
  cases hx : containsC '\\' (b64encode bs) with
  | false => rfl
  | true =>
      have hmem := containsC_true _ _ hx
      exact absurd (isB64OrPad_of_mem_b64encode bs '\\' hmem) (by decide)

/-- A bare base64 string without a slash is decoded back to the original
bytes by `process_audio` (with a slash it would be read as a file path). -/
theorem process_audio_bare (env : Env) (bs : Bytes) (hb : ∀ x ∈ bs, x < 256)
    (hs : containsC '/' (b64encode bs) = false) :
    process_audio env (.str (b64encode bs)) = some bs := by
  have hns := not_data_b64encode bs
  have hbsl := not_backslash_b64encode bs
  simp only [process_audio, hns, hs, hbsl, Bool.or_self, Bool.false_eq_true, if_false]
  exact b64decode_b64encode bs hb

/-- C3 counterexample: the claim "decoding the bare base64 string
base64(b) yields exactly b for every byte sequence b" is false: for
b = 0xFF 0xFF 0xFF the encoding is "////", which contains a path
separator, so `process_audio` takes the file-path branch, the read
raises, and the result is `None` rather than the original bytes. -/
theorem bare_b64_roundtrip_fails :
    ¬ (∀ bs : Bytes, (∀ x ∈ bs, x < 256) →
        process_audio envEmpty (.str (b64encode bs)) = some bs) := by
  intro h
  have h3 := h [255, 255, 255] (by decide)
  have hnone : process_audio envEmpty (.str (b64encode [255, 255, 255])) = none := rfl
  rw [hnone] at h3
  exact Option.noConfusion h3

/-- C3 (amended): audio ingestion round-trips the data-URL encoding
"data:audio/wav;base64," ++ base64(b) for every byte sequence b, and
round-trips the bare base64 encoding exactly when the encoded string
contains no slash character (a slash sends the string down the
file-path branch instead). -/
theorem process_audio_b64_roundtrip (env : Env) (bs : Bytes) (hb : ∀ x ∈ bs, x < 256) :
    process_audio env (.str (wavDataUrl ++ b64encode bs)) = some bs ∧
      (containsC '/' (b64encode bs) = false →
        process_audio env (.str (b64encode bs)) = some bs) := by
  constructor
  · have h1 : process_audio env (.str (wavDataUrl ++ b64encode bs))
        = b64decode (afterChar ',' (wavDataUrl ++ b64encode bs)) := rfl
    have h2 : afterChar ',' (wavDataUrl ++ b64encode bs) = b64encode bs := rfl
    rw [h1, h2]
    exact b64decode_b64encode bs hb
  · intro hs
    exact process_audio_bare env bs hb hs

/-- Witness for C3 (amended) at b = [1, 2, 3], whose encoding "AQID"
contains no slash: both encodings decode back to [1, 2, 3]. -/
theorem process_audio_b64_roundtrip_witness :
    (∀ x ∈ ([1, 2, 3] : Bytes), x < 256) ∧
      process_audio envEmpty (.str (wavDataUrl ++ b64encode [1, 2, 3])) = some [1, 2, 3] ∧
      process_audio envEmpty (.str (b64encode [1, 2, 3])) = some [1, 2, 3] :=
  ⟨by decide, (process_audio_b64_roundtrip envEmpty [1, 2, 3] (by decide)).1,
    (process_audio_b64_roundtrip envEmpty [1, 2, 3] (by decide)).2 (by decide)⟩

theorem invoke_ct (env : Env) (body : List (Str × Json)) (t0 t1 : ℚ) :
    invoke env appJson body t0 t1
      = invokeCore env (getKey audioKey body) ((getKey timestampsKey body).getD (.bool false))
        ((getKey languageKey body).getD (.str "en".toList)) t0 t1 := by
  simp [invoke]

theorem invokeCore_missing (env : Env) (ts l : Json) (t0 t1 : ℚ) :
    invokeCore env none ts l t0 t1 = (⟨400, .err missingAudioMsg⟩, false) := rfl

theorem invokeCore_falsy (env : Env) (v ts l : Json) (t0 t1 : ℚ) (h : truthy v = false) :
    invokeCore env (some v) ts l t0 t1 = (⟨400, .err missingAudioMsg⟩, false) := by
  simp [invokeCore, truthyOpt, h]

theorem invokeCore_pa_none (env : Env) (v ts l : Json) (t0 t1 : ℚ)
    (ht : truthy v = true) (hpa : process_audio env v = none) :
    invokeCore env (some v) ts l t0 t1 = (⟨400, .err failedAudioMsg⟩, false) := by
  simp [invokeCore, truthyOpt, ht, hpa]

theorem invokeCore_create_fail (env : Env) (v ts l : Json) (t0 t1 : ℚ) (ad : Bytes)
    (ht : truthy v = true) (hpa : process_audio env v = some ad)
    (htc : env.tempCreateOk = false) :
    invokeCore env (some v) ts l t0 t1 = (⟨500, .err env.tempCreateErrMsg⟩, false) := by
  simp [invokeCore, truthyOpt, ht, hpa, htc]

theorem invokeCore_write_fail (env : Env) (v ts l : Json) (t0 t1 : ℚ) (ad : Bytes)
    (ht : truthy v = true) (hpa : process_audio env v = some ad)
    (htc : env.tempCreateOk = true) (hw : env.writeOk = false) :
    invokeCore env (some v) ts l t0 t1 = (⟨500, .err env.writeErrMsg⟩, true) := by
  simp [invokeCore, truthyOpt, ht, hpa, htc, hw]

theorem invokeCore_happy (env : Env) (v ts l : Json) (t0 t1 : ℚ) (ad : Bytes)
    (ht : truthy v = true) (hpa : process_audio env v = some ad)
    (htc : env.tempCreateOk = true) (hw : env.writeOk = true) :
    invokeCore env (some v) ts l t0 t1
      = match transcribeStep env ad (truthy ts) with
        | .error e => (⟨500, .err e⟩, false)
        | .ok (text, tsr) => (⟨200, .ok text tsr (round3 (t1 - t0)) modelId⟩, false) := by
  simp [invokeCore, truthyOpt, ht, hpa, htc, hw]

theorem invokeCore_time_inv (env : Env) (a : Option Json) (ts l l' : Json) (t0 t1 t0' t1' : ℚ) :
    stripPT (invokeCore env a ts l t0 t1).1.body = stripPT (invokeCore env a ts l' t0' t1').1.body ∧
      (invokeCore env a ts l t0 t1).1.status = (invokeCore env a ts l' t0' t1').1.status ∧
      (invokeCore env a ts l t0 t1).2 = (invokeCore env a ts l' t0' t1').2 := by
  cases a with
  | none => exact ⟨rfl, rfl, rfl⟩
  | some v =>
      cases ht : truthy v with
      | false =>
          rw [invokeCore_falsy env v ts l t0 t1 ht, invokeCore_falsy env v ts l' t0' t1' ht]
          exact ⟨rfl, rfl, rfl⟩
      | true =>
          cases hpa : process_audio env v with
          | none =>
              rw [invokeCore_pa_none env v ts l t0 t1 ht hpa,
                invokeCore_pa_none env v ts l' t0' t1' ht hpa]
              exact ⟨rfl, rfl, rfl⟩
          | some ad =>
              cases htc : env.tempCreateOk with
              | false =>
                  rw [invokeCore_create_fail env v ts l t0 t1 ad ht hpa htc,
                    invokeCore_create_fail env v ts l' t0' t1' ad ht hpa htc]
                  exact ⟨rfl, rfl, rfl⟩
              | true =>
                  cases hw : env.writeOk with
                  | false =>
                      rw [invokeCore_write_fail env v ts l t0 t1 ad ht hpa htc hw,
                        invokeCore_write_fail env v ts l' t0' t1' ad ht hpa htc hw]
                      exact ⟨rfl, rfl, rfl⟩
                  | true =>
                      rw [invokeCore_happy env v ts l t0 t1 ad ht hpa htc hw,
                        invokeCore_happy env v ts l' t0' t1' ad ht hpa htc hw]
                      cases hstep : transcribeStep env ad (truthy ts) with
                      | error e => exact ⟨rfl, rfl, rfl⟩
                      | ok p =>
                          cases p with
                          | mk text tsr => exact ⟨rfl, rfl, rfl⟩

theorem invokeCore_snd (env : Env) (a : Option Json) (ts l : Json) (t0 t1 : ℚ)
    (hw : env.writeOk = true) : (invokeCore env a ts l t0 t1).2 = false := by
  cases a with
  | none => rfl
  | some v =>
      cases ht : truthy v with
      | false => rw [invokeCore_falsy env v ts l t0 t1 ht]
      | true =>
          cases hpa : process_audio env v with
          | none => rw [invokeCore_pa_none env v ts l t0 t1 ht hpa]
          | some ad =>
              cases htc : env.tempCreateOk with
              | false => rw [invokeCore_create_fail env v ts l t0 t1 ad ht hpa htc]
              | true =>
                  rw [invokeCore_happy env v ts l t0 t1 ad ht hpa htc hw]
                  cases hstep : transcribeStep env ad (truthy ts) with
                  | error e => rfl
                  | ok p => cases p with | mk text tsr => rfl

/-- C1: under content type application/json, a request whose `audio`
field is missing, or present with a value `process_audio` cannot turn
into bytes, is answered with status 400 and an error body (which has no
`text` field), never 200. -/
theorem invalid_audio_yields_400 (env : Env) (body : List (Str × Json)) (t0 t1 : ℚ)
    (h : getKey audioKey body = none ∨
      ∃ v, getKey audioKey body = some v ∧ process_audio env v = none) :
    (invoke env appJson body t0 t1).1.status = 400 ∧
      ∃ m, (invoke env appJson body t0 t1).1.body = .err m := by
  rw [invoke_ct]
  rcases h with hmiss | ⟨v, hv, hpa⟩
  · rw [hmiss, invokeCore_missing]
    exact ⟨rfl, missingAudioMsg, rfl⟩
  · rw [hv]
    cases ht : truthy v with
    | false =>
        rw [invokeCore_falsy env v _ _ t0 t1 ht]
        exact ⟨rfl, missingAudioMsg, rfl⟩
    | true =>
        rw [invokeCore_pa_none env v _ _ t0 t1 ht hpa]
        exact ⟨rfl, failedAudioMsg, rfl⟩

/-- Witness for C1 at the empty request body (no `audio` key). -/
theorem invalid_audio_yields_400_witness :
    (getKey audioKey ([] : List (Str × Json)) = none) ∧
      (invoke envEmpty appJson [] 0 0).1.status = 400 ∧
      ∃ m, (invoke envEmpty appJson [] 0 0).1.body = .err m :=
  ⟨rfl, invalid_audio_yields_400 envEmpty [] 0 0 (Or.inl rfl)⟩

/-- C2: for a request that reaches transcription, a falsy or absent
`timestamps` field produces a success body whose timestamps component is
`none` (no `timestamps` key in the JSON), while a truthy `timestamps`
field produces `some` word list extracted by `extractWords` from the
structured timestamp output of the model ( `extractWords` yields the
empty list when the `timestamp` attribute is absent or falsy, and the
`word` entry of the dictionary, defaulted to `[]`, otherwise). -/
theorem timestamps_key_contract (env : Env) (body : List (Str × Json)) (t0 t1 : ℚ)
    (v : Json) (ad : Bytes)
    (hA : getKey audioKey body = some v) (hv : truthy v = true)
    (hpa : process_audio env v = some ad)
    (htc : env.tempCreateOk = true) (hw : env.writeOk = true) :
    (∀ out, truthy ((getKey timestampsKey body).getD (.bool false)) = false →
        env.transcribe ad false = .ok out →
        invoke env appJson body t0 t1
          = (⟨200, .ok (out.text.getD out.str_repr) none (round3 (t1 - t0)) modelId⟩, false)) ∧
      (∀ out txt, truthy ((getKey timestampsKey body).getD (.bool false)) = true →
        env.transcribe ad true = .ok out → out.text = some txt →
        invoke env appJson body t0 t1
          = (⟨200, .ok txt (some (extractWords out)) (round3 (t1 - t0)) modelId⟩, false)) := by
  constructor
  · intro out hts htr
    rw [invoke_ct, hA, invokeCore_happy env v _ _ t0 t1 ad hv hpa htc hw, hts]
    simp [transcribeStep, htr]
  · intro out txt hts htr htxt
    rw [invoke_ct, hA, invokeCore_happy env v _ _ t0 t1 ad hv hpa htc hw, hts]
    simp [transcribeStep, htr, htxt]

/-- Witness for C2: with a decodable audio string and the well-behaved
environment `envOk`, both branches of the contract hold for concrete
requests with `timestamps` absent and `timestamps: true`. -/
theorem timestamps_key_contract_witness :
    (getKey audioKey [(audioKey, Json.str "AAAA".toList)] = some (Json.str "AAAA".toList)) ∧
      (∀ out, truthy ((getKey timestampsKey [(audioKey, Json.str "AAAA".toList)]).getD
            (.bool false)) = false →
        envOk.transcribe [0, 0, 0] false = .ok out →
        invoke envOk appJson [(audioKey, Json.str "AAAA".toList)] 0 0
          = (⟨200, .ok (out.text.getD out.str_repr) none (round3 (0 - 0)) modelId⟩, false)) ∧
      (∀ out txt, truthy ((getKey timestampsKey [(audioKey, Json.str "AAAA".toList)]).getD
            (.bool false)) = true →
        envOk.transcribe [0, 0, 0] true = .ok out → out.text = some txt →
        invoke envOk appJson [(audioKey, Json.str "AAAA".toList)] 0 0
          = (⟨200, .ok txt (some (extractWords out)) (round3 (0 - 0)) modelId⟩, false)) :=
  ⟨rfl, timestamps_key_contract envOk [(audioKey, Json.str "AAAA".toList)] 0 0
    (Json.str "AAAA".toList) [0, 0, 0] rfl rfl rfl rfl rfl⟩

/-- C5: once a request has a truthy `audio` field, every modelled
exception is caught and turned into a JSON error body rather than
propagating: a decode failure gives `{"error": "Failed to process audio
data"}` (400), a temporary-file creation failure, a write failure and a
`model.transcribe` failure each give `{"error": str(e)}` (500).  The
handler `invoke` is a total function: no exception escapes it. -/
theorem exceptions_become_error_bodies (env : Env) (body : List (Str × Json)) (t0 t1 : ℚ)
    (v : Json) (hA : getKey audioKey body = some v) (hv : truthy v = true) :
    (process_audio env v = none →
        invoke env appJson body t0 t1 = (⟨400, .err failedAudioMsg⟩, false)) ∧
      (∀ ad, process_audio env v = some ad → env.tempCreateOk = false →
        invoke env appJson body t0 t1 = (⟨500, .err env.tempCreateErrMsg⟩, false)) ∧
      (∀ ad, process_audio env v = some ad → env.tempCreateOk = true → env.writeOk = false →
        invoke env appJson body t0 t1 = (⟨500, .err env.writeErrMsg⟩, true)) ∧
      (∀ ad m, process_audio env v = some ad → env.tempCreateOk = true → env.writeOk = true →
        env.transcribe ad (truthy ((getKey timestampsKey body).getD (.bool false))) = .error m →
        invoke env appJson body t0 t1 = (⟨500, .err m⟩, false)) := by
  refine ⟨fun hpa => ?_, fun ad hpa htc => ?_, fun ad hpa htc hw => ?_,
    fun ad m hpa htc hw htr => ?_⟩
  · rw [invoke_ct, hA, invokeCore_pa_none env v _ _ t0 t1 hv hpa]
  · rw [invoke_ct, hA, invokeCore_create_fail env v _ _ t0 t1 ad hv hpa htc]
  · rw [invoke_ct, hA, invokeCore_write_fail env v _ _ t0 t1 ad hv hpa htc hw]
  · rw [invoke_ct, hA, invokeCore_happy env v _ _ t0 t1 ad hv hpa htc hw]
    cases hts : truthy ((getKey timestampsKey body).getD (.bool false)) with
    | false => rw [hts] at htr; simp [transcribeStep, htr]
    | true => rw [hts] at htr; simp [transcribeStep, htr]

/-- Witness for C5 at a truthy but undecodable audio value (a number):
the decode failure is converted to the 400 error body. -/
theorem exceptions_become_error_bodies_witness :
    (getKey audioKey [(audioKey, Json.num 1)] = some (Json.num 1)) ∧
      (truthy (Json.num 1) = true) ∧
      invoke envEmpty appJson [(audioKey, Json.num 1)] 0 0
        = (⟨400, .err failedAudioMsg⟩, false) :=
  ⟨rfl, by decide,
    (exceptions_become_error_bodies envEmpty [(audioKey, Json.num 1)] 0 0 (Json.num 1)
      rfl (by decide)).1 rfl⟩

theorem round3_nonneg (q : ℚ) (hq : 0 ≤ q) : 0 ≤ round3 q := by
  unfold round3
  have h1 : (0 : ℤ) ≤ round (q * 1000) := by
    rw [round_eq]
    exact Int.le_floor.mpr (by push_cast; linarith)
  have h2 : (0 : ℚ) ≤ ((round (q * 1000) : ℤ) : ℚ) := by exact_mod_cast h1
  exact div_nonneg h2 (by norm_num)

/-- C7: a successful no-timestamps request is answered 200 with the
transcript text, no timestamps component, `processing_time` equal to the
wall-clock elapsed time rounded to millisecond precision (and ≥ 0), and
the fixed model identifier. -/
theorem success_response_fields (env : Env) (body : List (Str × Json)) (t0 t1 : ℚ)
    (v : Json) (ad : Bytes) (out : ModelOutput)
    (hA : getKey audioKey body = some v) (hv : truthy v = true)
    (hpa : process_audio env v = some ad)
    (htc : env.tempCreateOk = true) (hw : env.writeOk = true)
    (hts : truthy ((getKey timestampsKey body).getD (.bool false)) = false)
    (htr : env.transcribe ad false = .ok out)
    (h01 : t0 ≤ t1) :
    invoke env appJson body t0 t1
        = (⟨200, .ok (out.text.getD out.str_repr) none (round3 (t1 - t0)) modelId⟩, false) ∧
      0 ≤ round3 (t1 - t0) ∧
      modelId = "nvidia/parakeet-tdt-0.6b-v2".toList := by
  refine ⟨?_, round3_nonneg _ (by linarith), rfl⟩
  rw [invoke_ct, hA, invokeCore_happy env v _ _ t0 t1 ad hv hpa htc hw, hts]
  simp [transcribeStep, htr]

/-- Witness for C7 with `envOk` and a one-second elapsed time. -/
theorem success_response_fields_witness :
    (getKey audioKey [(audioKey, Json.str "AAAA".toList)] = some (Json.str "AAAA".toList)) ∧
      ((0 : ℚ) ≤ 1) ∧
      invoke envOk appJson [(audioKey, Json.str "AAAA".toList)] 0 1
        = (⟨200, .ok (outOk.text.getD outOk.str_repr) none (round3 (1 - 0)) modelId⟩, false) ∧
      0 ≤ round3 ((1 : ℚ) - 0) :=
  ⟨rfl, by norm_num,
    (success_response_fields envOk [(audioKey, Json.str "AAAA".toList)] 0 1
      (Json.str "AAAA".toList) [0, 0, 0] outOk rfl rfl rfl rfl rfl rfl rfl
      (by norm_num)).1,
    (success_response_fields envOk [(audioKey, Json.str "AAAA".toList)] 0 1
      (Json.str "AAAA".toList) [0, 0, 0] outOk rfl rfl rfl rfl rfl rfl rfl
      (by norm_num)).2.1⟩

/-- C6: two request bodies that agree on their `audio` and `timestamps`
fields — in particular bodies identical except for the value or presence
of `language` — receive the same status, the same response body up to
the measured `processing_time`, and the same temporary-file effect, for
any wall-clock readings. -/
theorem language_field_unused (env : Env) (b1 b2 : List (Str × Json)) (t0 t1 t0' t1' : ℚ)
    (hA : getKey audioKey b1 = getKey audioKey b2)
    (hT : getKey timestampsKey b1 = getKey timestampsKey b2) :
    stripPT (invoke env appJson b1 t0 t1).1.body
        = stripPT (invoke env appJson b2 t0' t1').1.body ∧
      (invoke env appJson b1 t0 t1).1.status = (invoke env appJson b2 t0' t1').1.status ∧
      (invoke env appJson b1 t0 t1).2 = (invoke env appJson b2 t0' t1').2 := by
  rw [invoke_ct, invoke_ct, hA, hT]
  exact invokeCore_time_inv env (getKey audioKey b2)
    ((getKey timestampsKey b2).getD (.bool false))
    ((getKey languageKey b1).getD (.str "en".toList))
    ((getKey languageKey b2).getD (.str "en".toList)) t0 t1 t0' t1'

/-- Witness for C6: the same audio with `language: "fr"` present versus
absent, under different clock readings. -/
theorem language_field_unused_witness :
    (getKey audioKey [(audioKey, Json.str "AAAA".toList), (languageKey, Json.str "fr".toList)]
        = getKey audioKey [(audioKey, Json.str "AAAA".toList)]) ∧
      stripPT (invoke envOk appJson
          [(audioKey, Json.str "AAAA".toList), (languageKey, Json.str "fr".toList)] 0 1).1.body
        = stripPT (invoke envOk appJson [(audioKey, Json.str "AAAA".toList)] 0 2).1.body :=
  ⟨rfl, (language_field_unused envOk
    [(audioKey, Json.str "AAAA".toList), (languageKey, Json.str "fr".toList)]
    [(audioKey, Json.str "AAAA".toList)] 0 1 0 2 rfl rfl).1⟩

/-- C10: an `audio` field present with any falsy JSON value (empty
string, false, 0, empty object, empty list) is handled exactly like a
missing field: 400 with the missing-audio-field error, identical to
the response for a body with no `audio` key at all. -/
theorem falsy_audio_treated_as_missing (env : Env) (body : List (Str × Json)) (t0 t1 : ℚ)
    (v : Json) (hA : getKey audioKey body = some v)
    (hv : v ∈ [Json.str [], Json.bool false, Json.num 0, Json.obj [], Json.arr []]) :
    invoke env appJson body t0 t1 = (⟨400, .err missingAudioMsg⟩, false) ∧
      invoke env appJson [] t0 t1 = (⟨400, .err missingAudioMsg⟩, false) := by
  refine ⟨?_, by rw [invoke_ct]; exact invokeCore_missing env _ _ t0 t1⟩
  rw [invoke_ct, hA]
  simp only [List.mem_cons, List.not_mem_nil, or_false] at hv
  rcases hv with rfl | rfl | rfl | rfl | rfl <;>
    exact invokeCore_falsy env _ _ _ t0 t1 (by decide)

/-- Witness for C10 at the empty-string audio value. -/
theorem falsy_audio_treated_as_missing_witness :
    (getKey audioKey [(audioKey, Json.str [])] = some (Json.str [])) ∧
      invoke envOk appJson [(audioKey, Json.str [])] 0 0
        = (⟨400, .err missingAudioMsg⟩, false) ∧
      invoke envOk appJson [] 0 0 = (⟨400, .err missingAudioMsg⟩, false) :=
  ⟨rfl, falsy_audio_treated_as_missing envOk [(audioKey, Json.str [])] 0 0 (Json.str [])
    rfl (List.mem_cons_self _ _)⟩

/-- C4 counterexample: a request whose audio decodes fine reaches
temporary-file creation (`tempCreateOk` holds), but `f.write` raises; in
the source `temp_file` is assigned only after the write, so the
`finally` block skips the unlink and the created file is still on disk
when the request completes (second component `true`). -/
theorem temp_file_leak_on_write_failure :
    envLeak.tempCreateOk = true ∧
      process_audio envLeak (Json.str "AAAA".toList) = some [0, 0, 0] ∧
      invoke envLeak appJson [(audioKey, Json.str "AAAA".toList)] 0 0
        = (⟨500, .err envLeak.writeErrMsg⟩, true) :=
  ⟨rfl, rfl, rfl⟩

/-- C4 (amended): whenever the write of the audio bytes to the
temporary file succeeds (so the source records the file name in
`temp_file`), the file no longer exists on disk when the request
completes, on every exit path — transcription success and transcription
failure alike; only a failure of the write itself (after the file was
created) leaves the file behind. -/
theorem temp_file_always_deleted (env : Env) (ct : Str) (body : List (Str × Json))
    (t0 t1 : ℚ) (hw : env.writeOk = true) :
    (invoke env ct body t0 t1).2 = false := by
  unfold invoke
  split
  · exact invokeCore_snd env _ _ _ t0 t1 hw
  · rfl

/-- Witness for C4 (amended): under `envEmpty` the model call raises,
yet the temporary file is gone when the request completes. -/
theorem temp_file_always_deleted_witness :
    envEmpty.writeOk = true ∧
      (invoke envEmpty appJson [(audioKey, Json.str "AAAA".toList)] 0 0).2 = false :=
  ⟨rfl, temp_file_always_deleted envEmpty appJson [(audioKey, Json.str "AAAA".toList)] 0 0 rfl⟩

theorem runSteps_trace_init (fails : SmAction → Bool) (l : List SmAction) :
    (runSteps fails l).1 <+: l := by
  induction l with
  | nil => exact List.prefix_rfl
  | cons a rest ih =>
      unfold runSteps
      cases h : fails a with
      | true => exact ⟨rest, rfl⟩
      | false =>
          obtain ⟨t, ht⟩ := ih
          exact ⟨t, by simpa using congrArg (a :: ·) ht⟩

theorem runSteps_all_ok (fails : SmAction → Bool) (l : List SmAction)
    (h : ∀ a, fails a = false) : runSteps fails l = (l, false) := by
  induction l with
  | nil => rfl
  | cons a rest ih =>
      unfold runSteps
      rw [h a, ih]
      rfl

theorem runSteps_complete (fails : SmAction → Bool) (l : List SmAction)
    (h : (runSteps fails l).2 = false) : (runSteps fails l).1 = l := by
  induction l with
  | nil => rfl
  | cons a rest ih =>
      unfold runSteps at h ⊢
      cases hf : fails a with
      | true => rw [hf] at h; simp at h
      | false =>
          rw [hf] at h
          simp at h ⊢
          rw [ih h]

/-- C8: the cleanup operation attempts its SageMaker calls in exactly
the source order — describe endpoint (resolving its config), describe
config (resolving its model), delete endpoint, wait for endpoint
deletion, delete config, delete model: its trace is always an initial
segment of that sequence (so no call is retried or repeated, and no
exception escapes `cleanup`, which is total and merely reports the
failure in its second component); when nothing fails the full sequence
runs in order with nothing reported, and whenever no error is reported
the full ordered sequence was executed. -/
theorem cleanup_order_and_catch (fails : SmAction → Bool) :
    (cleanup fails).1 <+: cleanupSteps ∧
      (cleanup fails).1.Nodup ∧
      ((∀ a, fails a = false) → cleanup fails = (cleanupSteps, false)) ∧
      ((cleanup fails).2 = false → (cleanup fails).1 = cleanupSteps) := by
  refine ⟨runSteps_trace_init fails cleanupSteps, ?_,
    fun h => runSteps_all_ok fails cleanupSteps h,
    fun h => runSteps_complete fails cleanupSteps h⟩
  exact List.Nodup.sublist (runSteps_trace_init fails cleanupSteps).sublist (by decide)

/-- Witness for C8 at the failure-free oracle: the full ordered trace
with no reported error. -/
theorem cleanup_order_and_catch_witness :
    (cleanup (fun _ => false)).1 <+: cleanupSteps ∧
      ((∀ a, (fun _ => false : SmAction → Bool) a = false) →
        cleanup (fun _ => false) = (cleanupSteps, false)) :=
  ⟨(cleanup_order_and_catch (fun _ => false)).1,
    (cleanup_order_and_catch (fun _ => false)).2.2.1⟩

/-- C9 counterexample: the generated names do not follow the pattern
`<prefix>-<model|config|endpoint>-<timestamp>` claimed by the spec: no
common prefix makes the model name end in "-model-" ++ timestamp — the
actual model name "parakeet-tdt-<ts>" contains no letter m at all. -/
theorem deploy_names_not_spec_pattern :
    ¬ (∃ p : Str, model_name exTs = p ++ "-model-".toList ++ exTs ∧
        endpoint_config_name exTs = p ++ "-config-".toList ++ exTs ∧
        endpoint_name exTs = p ++ "-endpoint-".toList ++ exTs) := by
  rintro ⟨p, hm, -, -⟩
  have hm7 : 'm' ∈ "-model-".toList := by decide
  have hmem : 'm' ∈ model_name exTs := by
    rw [hm]
    exact List.mem_append_left exTs (List.mem_append_right p hm7)
  exact absurd hmem (by decide)

/-- C9 (amended): the three generated resource names share the common
prefix "parakeet" and a common creation timestamp, but the component
tags are "tdt" (model), "config" (endpoint configuration) and "asr"
(endpoint): `parakeet-<tdt|config|asr>-<YYYY-MM-DD-HH-MM-SS>`. -/
theorem deploy_names_pattern (ts : Str) :
    ∃ p : Str, model_name ts = p ++ "-tdt-".toList ++ ts ∧
      endpoint_config_name ts = p ++ "-config-".toList ++ ts ∧
      endpoint_name ts = p ++ "-asr-".toList ++ ts :=
  ⟨"parakeet".toList, rfl, rfl, rfl⟩
